import Mathlib

/-!
Shallow embedding of the `uikit-agent` code-generation workflow core.

The definitions below are translated from the repository sources:

* `src/agents/code_generator/state.py` — the `StatusEvent` and `CodeGenState`
  typed dictionaries and the `operator.add` (append) merge annotation on
  `status_history`;
* `src/agents/code_generator/nodes/base_codegen_nodes.py` — the generic
  per-platform pipeline nodes (`run_linter`, `fix_code`, `write_file`,
  `push_code`) and the router `should_continue`, with `MAX_ITERATIONS = 3`;
* `src/agents/code_generator/nodes/input_validation.py` — the validation
  gate `validate_input` and its router `should_continue`;
* `src/agents/code_generator/nodes/mcp_context_retrieval.py` — the context
  fan-out `retrieve_context`, `_fetch_docs` failure capture, and the design
  tree traversal `_collect_component_names_from_json`;
* `src/agents/code_generator/agent.py` — the graph wiring in `_build_graph`
  and `_add_pipeline_branch`;
* `src/app/services/repository_workspace.py` — `inject_code` and
  `commit_and_push`;
* `src/app/utils/code.py` — `clean_code_output`.

Python strings are modelled as `List Char` where character-level reasoning
is needed (the code-fence utility) and as Lean `String` elsewhere.  Python
`None` is `Option.none`; a Python function that can raise is modelled with
an `Option`/`Except` result or an explicit raised flag.  `datetime.now()`
timestamps are nondeterministic inputs and are taken as parameters.
-/

/-! ## Python string truthiness and `str.strip` primitives -/

/-- Python truthiness of a `str | None` value: `None` and `""` are falsy. -/
def pyTruthyStr : Option String → Bool
  | none => false
  | some s => !s.isEmpty

/-- ASCII whitespace stripped by the Python `str.strip` method. -/
def pyIsSpace (c : Char) : Bool :=
  c = ' ' || c = '\t' || c = '\n' || c = '\r' || c = '\x0b' || c = '\x0c'

/-- Model of `str.lstrip()` on a character list. -/
def pyLstrip (l : List Char) : List Char := l.dropWhile pyIsSpace

/-- Model of `str.rstrip()` on a character list. -/
def pyRstrip (l : List Char) : List Char := (l.reverse.dropWhile pyIsSpace).reverse

/-- Model of `str.strip()` on a character list. -/
def pyStrip (l : List Char) : List Char := pyLstrip (pyRstrip l)

/-- Model of `str.split(sep, 1)`: split at the first occurrence of `sep`, returning
the parts before and after it, or `none` when `sep` does not occur (in which
case the Python `split` returns a one-element list). -/
def pySplitOnce (sep : List Char) : List Char → Option (List Char × List Char)
  | [] => none
  | c :: rest =>
    if sep.isPrefixOf (c :: rest) then some ([], (c :: rest).drop sep.length)
    else
      match pySplitOnce sep rest with
      | some (before, after) => some (c :: before, after)
      | none => none

/-- The part of `str.rsplit(sep, 1)[0]` before the last occurrence of `sep`:
computed by locating the first occurrence of the reversed separator in the
reversed string.  Returns the whole string when `sep` does not occur (as
the Python `rsplit` does). -/
def pyRsplitBefore (sep l : List Char) : List Char :=
  match pySplitOnce sep.reverse l.reverse with
  | some (_, after) => after.reverse
  | none => l

/-! ## `src/app/utils/code.py` — `clean_code_output` -/

/-- Model of `clean_code_output` from `src/app/utils/code.py`, on character lists.
`none` models the `IndexError` raised by `content.split("\n", 1)[1]` when
the stripped content starts with a fence but contains no line break. -/
def clean_code_output (content : List Char) : Option (List Char) :=
  stripTrailingFence (stripLeadingFence (pyStrip content))
where
  /-- The `content.startswith("```")` branch: drop everything up to and
  including the first line break; `none` models the `IndexError` of
  `split("\n", 1)[1]` when there is no line break. -/
  stripLeadingFence (c : List Char) : Option (List Char) :=
    if ("```".toList).isPrefixOf c then (pySplitOnce ['\n'] c).map Prod.snd
    else some c
  /-- The `content.endswith("```")` branch (on the possibly-raised
  intermediate result) followed by the final `strip`. -/
  stripTrailingFence : Option (List Char) → Option (List Char)
    | none => none
    | some c =>
      some (pyStrip (if ("```".toList).isSuffixOf c then pyRsplitBefore ("```".toList) c else c))

/-- Model of `clean_code_output` lifted to Lean strings (`none` models a raised
`IndexError`). -/
def cleanCodeOutputStr (content : String) : Option String :=
  (clean_code_output content.toList).map fun l => ⟨l⟩

/-! ## Design tree nodes (`figma_json`) -/

/-- A node of the design (Figma) JSON tree, as consumed by
`_collect_component_names_from_json`: a dict carrying an optional `type`
string, an optional `name` string, and a list under `children`.  An absent
or non-list `children` key is the empty list. -/
inductive DesignNode where
  | mk (ty : Option String) (nm : Option String) (children : List DesignNode)
deriving Repr

/-- Model of `node.get("type")`. -/
def DesignNode.ty : DesignNode → Option String
  | .mk t _ _ => t

/-- Model of `node.get("name")`. -/
def DesignNode.nm : DesignNode → Option String
  | .mk _ n _ => n

/-- Model of `node.get("children")` (empty list when absent). -/
def DesignNode.children : DesignNode → List DesignNode
  | .mk _ _ c => c

/-! ## `src/agents/code_generator/state.py` — data model and merge policy -/

/-- Structure `StatusEvent` from `src/agents/code_generator/state.py`.  `details` is a
small string-keyed payload (`{"errors": ...}` / `{"branch": ...}`) or `None`. -/
structure StatusEvent where
  timestamp : String
  scope : String
  status : String
  message : String
  details : Option (List (String × String))
deriving Repr, DecidableEq

/-- The two configured platforms. -/
inductive Platform where
  | web
  | mobile
deriving Repr, DecidableEq

/-- The platform key string (`self.platform` in `BaseCodeGenNodes`). -/
def Platform.str : Platform → String
  | .web => "web"
  | .mobile => "mobile"

/-- Structure `CodeGenState` from `src/agents/code_generator/state.py`, together with
the dynamically keyed per-platform fields (`web_lint_errors`,
`web_iterations`, ...) written by the pipeline nodes.  `figma_json` is the
parsed design tree; `none` models a missing or empty (falsy) dict.
`*_iterations` is `none` while the key is not yet in the state (the nodes
read it with `state.get(key, 0)`). -/
structure CodeGenState where
  figma_json : Option DesignNode
  component_name : Option String
  user_prompt : Option String
  task_id : String
  web_docs : Option String
  mobile_docs : Option String
  status_history : List StatusEvent
  web_code : Option String
  mobile_code : Option String
  web_lint_errors : Option String
  mobile_lint_errors : Option String
  web_iterations : Option Nat
  mobile_iterations : Option Nat
deriving Repr

/-- A partial state update returned by a node (the dict a node returns).  For each
replace-policy channel, `none` means "key absent from the update" and
`some v` means "set the channel to `v`" (so `some none` models explicitly
writing Python `None`, as `run_linter` does for `lint_errors`).
`status_history` carries the events to append (`operator.add` channel). -/
structure StateUpdate where
  web_docs : Option (Option String) := none
  mobile_docs : Option (Option String) := none
  web_code : Option (Option String) := none
  mobile_code : Option (Option String) := none
  web_lint_errors : Option (Option String) := none
  mobile_lint_errors : Option (Option String) := none
  web_iterations : Option Nat := none
  mobile_iterations : Option Nat := none
  status_history : List StatusEvent := []
deriving Repr

/-- The empty update (`return {}`). -/
def StateUpdate.empty : StateUpdate := {}

/-- The LangGraph merge of one partial node update into the shared state:
every scalar channel is replaced when the update carries it, and
`status_history` is appended to (the `Annotated[list[StatusEvent],
operator.add]` channel in `state.py`). -/
def mergeState (s : CodeGenState) (u : StateUpdate) : CodeGenState :=
  { s with
    web_docs := u.web_docs.getD s.web_docs
    mobile_docs := u.mobile_docs.getD s.mobile_docs
    web_code := u.web_code.getD s.web_code
    mobile_code := u.mobile_code.getD s.mobile_code
    web_lint_errors := u.web_lint_errors.getD s.web_lint_errors
    mobile_lint_errors := u.mobile_lint_errors.getD s.mobile_lint_errors
    web_iterations := u.web_iterations.or s.web_iterations
    mobile_iterations := u.mobile_iterations.or s.mobile_iterations
    status_history := s.status_history ++ u.status_history }

/-- Model of `state.get(f"{p}_lint_errors")`. -/
def CodeGenState.lintErrors (s : CodeGenState) : Platform → Option String
  | .web => s.web_lint_errors
  | .mobile => s.mobile_lint_errors

/-- Model of `state.get(f"{p}_iterations", 0)`. -/
def CodeGenState.iterations (s : CodeGenState) (p : Platform) : Nat :=
  (match p with
   | .web => s.web_iterations
   | .mobile => s.mobile_iterations).getD 0

/-- Model of `state.get(f"{p}_code")`. -/
def CodeGenState.codeFor (s : CodeGenState) : Platform → Option String
  | .web => s.web_code
  | .mobile => s.mobile_code

/-! ## `BaseCodeGenNodes.should_continue` — the retry router -/

/-- Constant `MAX_ITERATIONS` from `base_codegen_nodes.py` line 16. -/
def MAX_ITERATIONS : Nat := 3

/-- The router `BaseCodeGenNodes.should_continue`
(`base_codegen_nodes.py` lines 404–413): if the lint-error value of the platform
is truthy and the iteration counter is below `MAX_ITERATIONS`, return
`"fix_<platform>"`, otherwise `"push_<platform>"`. -/
def should_continue (p : Platform) (s : CodeGenState) : String :=
  if pyTruthyStr (s.lintErrors p) && decide (s.iterations p < MAX_ITERATIONS) then
    "fix_" ++ p.str
  else
    "push_" ++ p.str

/-! ## `input_validation.py` — the validation gate -/

/-- The status event built by `InputValidationNodes.validate_input` when
`figma_json` is missing or empty. -/
def missingFigmaEvent (ts : String) : StatusEvent :=
  { timestamp := ts, status := "error", scope := "common"
    message := "Missing Figma Data", details := none }

/-- The status event built by `InputValidationNodes.validate_input` when
`figma_json` is present. -/
def validatedEvent (ts : String) : StatusEvent :=
  { timestamp := ts, status := "success", scope := "common"
    message := "Input validated successfully", details := none }

/-- Model of `InputValidationNodes.validate_input`: appends an error event when
`figma_json` is falsy (missing or empty dict), a success event otherwise. -/
def validate_input (ts : String) (s : CodeGenState) : StateUpdate :=
  match s.figma_json with
  | none => { status_history := [missingFigmaEvent ts] }
  | some _ => { status_history := [validatedEvent ts] }

/-- Model of `InputValidationNodes.should_continue`: inspects the status of the last
event in `status_history`; `"error"` routes to `END`, anything else to
`"retrieve_mcp_context"`.  `none` models the `IndexError` of
`state["status_history"][-1]` on an empty history. -/
def validationRoute (s : CodeGenState) : Option String :=
  match s.status_history.getLast? with
  | none => none
  | some ev => some (if ev.status = "error" then "END" else "retrieve_mcp_context")

/-! ## `repository_workspace.py` — workspace and git collaborators -/

/-- Update or insert a key in an association list (a Python dict write). -/
def assocSet (k v : String) : List (String × String) → List (String × String)
  | [] => [(k, v)]
  | (k', v') :: rest => if k' = k then (k, v) :: rest else (k', v') :: assocSet k v rest

/-- The files of the local checkout of a platform, as path ↦ contents. -/
structure Workspace where
  files : List (String × String)
deriving Repr

/-- Contents of a file in the workspace. -/
def Workspace.readFile (ws : Workspace) (path : String) : Option String :=
  (ws.files.find? fun kv => kv.1 = path).map Prod.snd

/-- Model of `RepositoryWorkspace.inject_code` (`repository_workspace.py` lines
98–104).  `open(full_path, "w")` creates/truncates the file at `path`
immediately; `f.write(code)` then raises `TypeError` when `code` is Python
`None`, leaving the file empty.  The `Bool` records whether the call
raised. -/
def inject_code (ws : Workspace) (path : String) (code : Option String) :
    Workspace × Bool :=
  match code with
  | some c => ({ files := assocSet path c ws.files }, false)
  | none => ({ files := assocSet path "" ws.files }, true)

/-- An abstract view of the git side of `RepositoryWorkspace`:
the `git status --porcelain` output of the working tree after `git add .`,
the list of commit messages created so far, and the branches pushed. -/
structure GitRepo where
  porcelain : String
  commits : List String
  pushed : List String
deriving Repr

/-- Model of `RepositoryWorkspace.commit_and_push` (`repository_workspace.py` lines
135–147): after `git add .`, if `git status --porcelain` prints nothing the
function returns without committing; otherwise it commits with `message`
and force-pushes `branch_name`. -/
def commit_and_push (r : GitRepo) (message branch : String) : GitRepo :=
  if r.porcelain = "" then r
  else { r with commits := r.commits ++ [message], pushed := r.pushed ++ [branch] }

/-! ## `BaseCodeGenNodes` — generic pipeline nodes -/

/-- Model of `BaseCodeGenNodes._get_component_name`: the state entry
`component_name` (default `"component"`) plus a dash and the first 8
characters of the task id. -/
def componentNameOf (s : CodeGenState) : String :=
  (s.component_name.getD "component") ++ "-" ++ (s.task_id.take 8)

/-- Model of `_get_file_path` per platform: `get_web_file_path` in `web_nodes.py`
and `MobilePipelineNodes._get_file_path` in `mobile_nodes.py`. -/
def filePathFor (p : Platform) (componentName : String) : String :=
  match p with
  | .web => "src/app/preview/" ++ componentName ++ "/page.tsx"
  | .mobile => "app/(screens)/" ++ componentName ++ ".tsx"

/-- Build a `StateUpdate` writing the `code` channel of one platform. -/
def codeUpdate (p : Platform) (v : Option String) : StateUpdate :=
  match p with
  | .web => { web_code := some v }
  | .mobile => { mobile_code := some v }

/-- Build a `StateUpdate` writing the `lint_errors` channel of one platform. -/
def lintErrorsUpdate (p : Platform) (v : Option String) : StateUpdate :=
  match p with
  | .web => { web_lint_errors := some v }
  | .mobile => { mobile_lint_errors := some v }

/-- The outcome of one `workspace.run_linter_fix()` call as observed by the
`run_linter` node: the linter passed (and the node reads the possibly
reformatted file back), the linter reported errors with diagnostic
`output`, or the call raised an exception with message `msg`. -/
inductive LintOutcome where
  | passed (fileContents : String)
  | failed (output : String)
  | exc (msg : String)
deriving Repr

/-- Model of `BaseCodeGenNodes.run_linter` (`base_codegen_nodes.py` lines 298–343),
as a function of the state and the linter outcome.  On success it rewrites
`code` with the re-read file and clears `lint_errors`; on reported errors it
stores the full output in `lint_errors`, increments the iteration counter,
and appends a warning event with the output truncated to 500 characters; on
an exception it returns only `{lint_errors: str(e)}` (no counter update and
no status event). -/
def run_linter (p : Platform) (s : CodeGenState) (o : LintOutcome) (ts : String) :
    StateUpdate :=
  match o with
  | .passed contents =>
    let ev : StatusEvent :=
      { timestamp := ts, scope := p.str ++ "_lint", status := "success"
        message := p.str.capitalize ++ " Linter passed (auto-fixed)", details := none }
    { codeUpdate p (some contents), lintErrorsUpdate p none with status_history := [ev] }
  | .failed output =>
    let ev : StatusEvent :=
      { timestamp := ts, scope := p.str ++ "_lint", status := "warning"
        message := p.str.capitalize ++ " linter found errors"
        details := some [("errors", output.take 500)] }
    let base := lintErrorsUpdate p (some output)
    match p with
    | .web => { base with web_iterations := some (s.iterations .web + 1), status_history := [ev] }
    | .mobile => { base with mobile_iterations := some (s.iterations .mobile + 1), status_history := [ev] }
  | .exc msg => lintErrorsUpdate p (some msg)

/-- Model of `BaseCodeGenNodes.fix_code` (`base_codegen_nodes.py` lines 346–377), as
a function of the state and the model response (`Except` models a raised
transport error).  The node reads `state[code]` and `state[lint_errors]`
with `[]` indexing, so a missing key is a `KeyError`, caught by the
surrounding handler which returns `{}`; likewise any exception from the
model call or from `clean_code_output` yields `{}`.  On success the cleaned
response replaces `code`. -/
def fix_code (p : Platform) (s : CodeGenState) (modelResponse : Except String String) :
    StateUpdate :=
  match s.codeFor p, s.lintErrors p with
  | some _, some _ =>
    match modelResponse with
    | .ok raw =>
      match cleanCodeOutputStr raw with
      | some fixed => codeUpdate p (some fixed)
      | none => StateUpdate.empty
    | .error _ => StateUpdate.empty
  | _, _ => StateUpdate.empty

/-- Model of `BaseCodeGenNodes.write_file` (`base_codegen_nodes.py` lines 269–295):
injects `state.get(code)` into the platform file path; every exception from
`inject_code` is caught and converted into an error status event, so the
node itself never raises. -/
def write_file (p : Platform) (s : CodeGenState) (ws : Workspace) (ts : String) :
    Workspace × StateUpdate :=
  let path := filePathFor p (componentNameOf s)
  let (ws', raised) := inject_code ws path (s.codeFor p)
  if raised then
    (ws',
     { status_history :=
        [{ timestamp := ts, scope := p.str ++ "_write", status := "error"
           message := p.str.capitalize ++ " writing failed: write() argument must be str, not None"
           details := none }] })
  else
    (ws',
     { status_history :=
        [{ timestamp := ts, scope := p.str ++ "_write", status := "success"
           message := p.str.capitalize ++ " code written to: '" ++ path ++ "'"
           details := none }] })

/-- The commit-message suffix `push_code` appends when the lint-error value of the platform is truthy. -/
def forcedPushMarker : String := " (forced push with errors)"

/-- The commit message built by `BaseCodeGenNodes.push_code`
(`base_codegen_nodes.py` lines 385–387). -/
def pushMessage (componentName : String) (p : Platform) (lintErrs : Option String) :
    String :=
  let msg := "feat(" ++ componentName ++ "): generate " ++ p.str ++ " component"
  if pyTruthyStr lintErrs then msg ++ forcedPushMarker else msg

/-- Model of `BaseCodeGenNodes.push_code` (`base_codegen_nodes.py` lines 380–401):
builds the commit message from the lint errors held in the state, calls
`commit_and_push` on the branch `codegen/<componentName>`, and returns a
status-history-only update (success event; a raised git error is caught and
converted to an error event — the modelled `commit_and_push` is total, so
only the success event appears here). -/
def push_code (p : Platform) (s : CodeGenState) (repo : GitRepo) (ts : String) :
    GitRepo × StateUpdate :=
  let name := componentNameOf s
  let branch := "codegen/" ++ name
  let msg := pushMessage name p (s.lintErrors p)
  let repo' := commit_and_push repo msg branch
  (repo',
   { status_history :=
      [{ timestamp := ts, scope := p.str ++ "_git", status := "success"
         message := "Pushed to '" ++ branch ++ "'", details := none }] })

/-! ## `mcp_context_retrieval.py` — context fan-out and tree traversal -/

/-- Python `set.add` on an accumulator list: append the element only when it
is not already present (insertion order preserved, as the model of the
mutable `set` threaded through the traversal). -/
def setAdd (acc : List (Option String)) (x : Option String) : List (Option String) :=
  if x ∈ acc then acc else acc ++ [x]

/-- Model of `MCPContextRetrievalNode._collect_component_names_from_json`
(`mcp_context_retrieval.py` lines 83–102): if the node `type` is
`"INSTANCE"`, add its `name` (possibly `None`) to the set; then recurse into
`children` when that list is truthy (non-empty). -/
def collectComponentNames : DesignNode → List (Option String) → List (Option String)
  | .mk ty nm children, acc =>
    let acc1 := if ty = some "INSTANCE" then setAdd acc nm else acc
    collectChildren children acc1
where
  /-- The `for item in node.get("children")` loop. -/
  collectChildren : List DesignNode → List (Option String) → List (Option String)
  | [], acc => acc
  | n :: rest, acc => collectChildren rest (collectComponentNames n acc)

/-- Model of `MCPContextRetrievalNode._extract_component_names`: the traversal
started from the root with an empty set. -/
def extractComponentNames (figma : DesignNode) : List (Option String) :=
  collectComponentNames figma []

/-- A node of the tree has type `"INSTANCE"` and name-field value `x`
somewhere at any depth (reachability through `children`). -/
inductive InstanceNamed : DesignNode → Option String → Prop where
  | here (nm : Option String) (children : List DesignNode) :
      InstanceNamed (.mk (some "INSTANCE") nm children) nm
  | child {ty nm x} {children : List DesignNode} {c : DesignNode} :
      c ∈ children → InstanceNamed c x → InstanceNamed (.mk ty nm children) x

/-- The per-source result of `_fetch_docs` as observed by
`asyncio.gather(..., return_exceptions=True)`: either the returned value
(`None` when the client is absent, otherwise the aggregated docs blob) or a
captured exception message. -/
abbrev FetchResult := Except String (Option String)

/-- Model of `MCPContextRetrievalNode.retrieve_context` (`mcp_context_retrieval.py`
lines 28–81) as a function of the two gathered per-source results: a
captured exception is logged (`logger.error`) and replaced by the fixed
per-platform placeholder string; the result of the other source is used as-is.
Returns the state update together with the list of `(level, message)` log
records emitted. -/
def retrieve_context (webRes mobileRes : FetchResult) (mobileClientPresent : Bool)
    (ts : String) : StateUpdate × List (String × String) :=
  let (webDocs, webLogs) :=
    match webRes with
    | .error e => (some "Error retrieving Web docs.", [("error", "Web MCP Error: " ++ e)])
    | .ok v => (v, [])
  let (mobileDocs, mobileLogs) :=
    match mobileRes with
    | .error e => (some "Error retrieving Mobile docs.", [("error", "Mobile MCP Error: " ++ e)])
    | .ok v => (v, [])
  ({ web_docs := some webDocs
     mobile_docs := some mobileDocs
     status_history :=
      [{ timestamp := ts, scope := "common", status := "success"
         message := "Documentation retrieved from Web "
           ++ (if mobileClientPresent then "and Mobile" else "") ++ " sources"
         details := none }] },
   webLogs ++ mobileLogs)

/-! ## `agent.py` — graph wiring and superstep executor -/

/-- The named nodes of the compiled graph (`CodeGeneratorAgent._build_graph`
and `_add_pipeline_branch`), plus the terminal `END` marker. -/
inductive NodeId where
  | validateInput
  | retrieveMcpContext
  | prepare (p : Platform)
  | generate (p : Platform)
  | write (p : Platform)
  | lint (p : Platform)
  | fix (p : Platform)
  | push (p : Platform)
  | terminal
deriving Repr, DecidableEq

/-- The graph edges, from `_build_graph` / `_add_pipeline_branch`:
`START → validate_input`; a conditional edge out of `validate_input` keyed
by `InputValidationNodes.should_continue`; `retrieve_mcp_context` fans out
to both platform `prepare` nodes; each branch runs
prepare → generate → write → lint, a conditional edge out of `lint` keyed
by `should_continue`, `fix → write`, and `push → END`. -/
def successors (n : NodeId) (s : CodeGenState) : List NodeId :=
  match n with
  | .validateInput =>
    match validationRoute s with
    | none => []
    | some r => if r = "END" then [.terminal] else [.retrieveMcpContext]
  | .retrieveMcpContext => [.prepare .web, .prepare .mobile]
  | .prepare p => [.generate p]
  | .generate p => [.write p]
  | .write p => [.lint p]
  | .lint p => if should_continue p s = "fix_" ++ p.str then [.fix p] else [.push p]
  | .fix p => [.write p]
  | .push _ => [.terminal]
  | .terminal => []

/-- The update function the executor applies at each node: the validation
gate is the embedded `validate_input`; every other node performs external
I/O and is supplied as the behaviour parameter `beh`. -/
def nodeUpdate (beh : NodeId → CodeGenState → StateUpdate) (ts : String) :
    NodeId → CodeGenState → StateUpdate
  | .validateInput, s => validate_input ts s
  | n, s => beh n s

/-- The LangGraph superstep executor, fuel-bounded: each round runs every
non-terminal node of the frontier on the current state, merges all their
partial updates, and activates the successors computed on the merged state.
Returns the final state and the list of nodes executed, in order. -/
def runGraph (beh : NodeId → CodeGenState → StateUpdate) (ts : String) :
    Nat → List NodeId → CodeGenState → CodeGenState × List NodeId
  | 0, _, s => (s, [])
  | fuel + 1, frontier, s =>
    let active := frontier.filter fun x => x ≠ NodeId.terminal
    match active with
    | [] => (s, [])
    | _ =>
      let updates := active.map fun nd => nodeUpdate beh ts nd s
      let s' := updates.foldl mergeState s
      let next := (active.map fun nd => successors nd s').flatten
      let r := runGraph beh ts fuel next s'
      (r.1, active ++ r.2)

/-- A whole run: start the executor at `validate_input` (the target of the
`START` edge). -/
def runFromStart (beh : NodeId → CodeGenState → StateUpdate) (ts : String)
    (fuel : Nat) (s : CodeGenState) : CodeGenState × List NodeId :=
  runGraph beh ts fuel [.validateInput] s

/-! ## Fixtures and helper lemmas -/

/-- A concrete base state used by counterexamples and witnesses. -/
def baseState : CodeGenState where
  figma_json := none
  component_name := some "Button"
  user_prompt := none
  task_id := "0123456789abcdef"
  web_docs := none
  mobile_docs := none
  status_history := []
  web_code := none
  mobile_code := none
  web_lint_errors := none
  mobile_lint_errors := none
  web_iterations := none
  mobile_iterations := none

/-- Merging a partial update appends its events to the history. -/
theorem mergeState_history (s : CodeGenState) (u : StateUpdate) :
    (mergeState s u).status_history = s.status_history ++ u.status_history := rfl

/-- Folding any sequence of partial updates concatenates all their events
after the existing history. -/
theorem foldl_mergeState_history (us : List StateUpdate) (s : CodeGenState) :
    (us.foldl mergeState s).status_history
      = s.status_history ++ (us.map StateUpdate.status_history).flatten := by
  induction us generalizing s with
  | nil => simp
  | cons u us ih => simp [ih, mergeState_history]

/-- The two router destinations differ. -/
theorem fix_ne_push (p : Platform) : "fix_" ++ p.str ≠ "push_" ++ p.str := by
  cases p <;> decide

/-- C1 (amended).  The platform router `should_continue` is a pure total
function of `(lintErrors[p], retryCount[p])` returning one of exactly the
two destinations `fix_<p>` and `push_<p>`; it returns the fix destination
iff `lintErrors[p]` is a truthy (non-`None`, non-empty) string and
`retryCount[p] < MAX_ITERATIONS`, and the push destination otherwise — in
particular whenever `retryCount[p] = 3`. -/
theorem retry_router_fix_iff_truthy_and_below_ceiling (p : Platform) (s : CodeGenState) :
    (should_continue p s = "fix_" ++ p.str ∨ should_continue p s = "push_" ++ p.str) ∧
    (should_continue p s = "fix_" ++ p.str ↔
      pyTruthyStr (s.lintErrors p) = true ∧ s.iterations p < MAX_ITERATIONS) ∧
    (should_continue p s = "push_" ++ p.str ↔
      ¬(pyTruthyStr (s.lintErrors p) = true ∧ s.iterations p < MAX_ITERATIONS)) := by
  have hcond : (pyTruthyStr (s.lintErrors p) && decide (s.iterations p < MAX_ITERATIONS)) = true
      ↔ (pyTruthyStr (s.lintErrors p) = true ∧ s.iterations p < MAX_ITERATIONS) := by
    simp
  by_cases h : pyTruthyStr (s.lintErrors p) = true ∧ s.iterations p < MAX_ITERATIONS
  · have hfix : should_continue p s = "fix_" ++ p.str := by
      unfold should_continue
      rw [if_pos (hcond.mpr h)]
    refine ⟨Or.inl hfix, ?_, ?_⟩
    · simp [hfix, h.1, h.2]
    · simp [hfix, h.1, h.2, fix_ne_push p]
  · have hpush : should_continue p s = "push_" ++ p.str := by
      unfold should_continue
      rw [if_neg fun hc => h (hcond.mp hc)]
    refine ⟨Or.inr hpush, ?_, ?_⟩
    · simp [hpush, h, (fix_ne_push p).symm]
    · simp [hpush, h]

/-- C1 (counterexample to the claim as stated).  A state whose
`web_lint_errors` is the empty string: `lintErrors[web]` is set (not
`None`) and `retryCount[web] = 0 < 3`, yet the router returns the push
destination, not fix — the code tests Python truthiness, under which an
empty diagnostic string counts as no errors. -/
theorem retry_router_empty_string_routes_to_push :
    ({ baseState with web_lint_errors := some "", web_iterations := some 0
       } : CodeGenState).lintErrors .web ≠ none ∧
    ({ baseState with web_lint_errors := some "", web_iterations := some 0
       } : CodeGenState).iterations .web < MAX_ITERATIONS ∧
    should_continue .web
      { baseState with web_lint_errors := some "", web_iterations := some 0 }
      = "push_web" := by
  refine ⟨by simp [baseState, CodeGenState.lintErrors], by decide, ?_⟩
  decide

/-- C6.  The `status_history` channel is append-only: a single merge is
exactly list concatenation of the events of the update onto the existing
history, and across any sequence of merged partial updates the initial
history stays a prefix (so previously appended events keep their relative
order) and the length never decreases. -/
theorem status_history_append_only :
    (∀ (s : CodeGenState) (u : StateUpdate),
        (mergeState s u).status_history = s.status_history ++ u.status_history) ∧
    (∀ (s : CodeGenState) (us : List StateUpdate),
        s.status_history <+: (us.foldl mergeState s).status_history) ∧
    (∀ (s : CodeGenState) (us : List StateUpdate),
        s.status_history.length ≤ (us.foldl mergeState s).status_history.length) := by
  refine ⟨fun s u => mergeState_history s u, fun s us => ?_, fun s us => ?_⟩
  · rw [foldl_mergeState_history]
    exact List.prefix_append _ _
  · rw [foldl_mergeState_history]
    simp

/-- C3.  Context retrieval isolates a per-source failure: when one
documentation source raises (its gathered result is a captured exception),
`retrieve_context` still returns an update (it does not re-raise — the
embedding is a total function of the two gathered results), the failing
platform docs channel is set to the fixed per-platform error placeholder,
the docs channel of the other platform is exactly what it would have been
for any non-failing (or failing) web result, and an error log record for
the failure is emitted. -/
theorem context_retrieval_isolates_source_failure
    (e : String) (wr mr : FetchResult) (mob : Bool) (ts : String) :
    ((retrieve_context (Except.error e) mr mob ts).1.web_docs
        = some (some "Error retrieving Web docs.")) ∧
    ((retrieve_context (Except.error e) mr mob ts).1.mobile_docs
        = (retrieve_context wr mr mob ts).1.mobile_docs) ∧
    (("error", "Web MCP Error: " ++ e) ∈ (retrieve_context (Except.error e) mr mob ts).2) ∧
    ((retrieve_context wr (Except.error e) mob ts).1.mobile_docs
        = some (some "Error retrieving Mobile docs.")) ∧
    ((retrieve_context wr (Except.error e) mob ts).1.web_docs
        = (retrieve_context wr mr mob ts).1.web_docs) ∧
    (("error", "Mobile MCP Error: " ++ e) ∈ (retrieve_context wr (Except.error e) mob ts).2) := by
  cases wr <;> cases mr <;> simp [retrieve_context]

/-- The commit message built by `push_code` ends with the forced-push marker
exactly when the lint-error value of the platform is truthy: the marker is
appended verbatim in that case, and otherwise the message ends with the
literal `" component"`, whose last character differs from the last character
of the marker. -/
theorem pushMessage_marker_iff (name : String) (p : Platform) (errs : Option String) :
    forcedPushMarker.toList <:+ (pushMessage name p errs).toList ↔
      pyTruthyStr errs = true := by
  unfold pushMessage
  by_cases ht : pyTruthyStr errs = true
  · rw [if_pos ht]
    refine ⟨fun _ => ht, fun _ => ?_⟩
    show forcedPushMarker.data <:+ (_ ++ forcedPushMarker).data
    rw [String.data_append]
    exact List.suffix_append _ _
  · rw [if_neg ht]
    refine ⟨fun hsuf => absurd ?_ ht, fun h => absurd h ht⟩
    exfalso
    obtain ⟨t, hts⟩ := hsuf
    have hlast : ("feat(" ++ name ++ "): generate " ++ p.str ++ " component").toList.getLast?
        = some 't' := by
      show (_ ++ " component").data.getLast? = some 't'
      rw [String.data_append, List.getLast?_append_of_ne_nil _ (by decide)]
      decide
    rw [← hts, List.getLast?_append_of_ne_nil _ (by decide)] at hlast
    exact absurd hlast (by decide)

/-- C7 (amended).  The push stage commits only when the working tree is
non-empty (an empty `git status --porcelain` output returns without
committing, a non-empty one appends exactly one commit carrying the built
message); the commit message carries the forced-push marker iff
`lintErrors[p]` is a truthy (non-`None`, non-empty) string at push time;
and merging the update returned by the push node leaves `lintErrors[p]`
unchanged, so errors present at the ceiling remain set in the final
state. -/
theorem push_stage_commit_gating_and_forced_marker
    (s : CodeGenState) (p : Platform) (repo : GitRepo) (ts : String) :
    (repo.porcelain = "" → (push_code p s repo ts).1 = repo) ∧
    (repo.porcelain ≠ "" →
      (push_code p s repo ts).1.commits
        = repo.commits ++ [pushMessage (componentNameOf s) p (s.lintErrors p)]) ∧
    (∀ (name : String) (errs : Option String),
      forcedPushMarker.toList <:+ (pushMessage name p errs).toList ↔
        pyTruthyStr errs = true) ∧
    (mergeState s (push_code p s repo ts).2).lintErrors p = s.lintErrors p := by
  refine ⟨fun h => ?_, fun h => ?_, fun name errs => pushMessage_marker_iff name p errs, ?_⟩
  · simp [push_code, commit_and_push, h]
  · simp [push_code, commit_and_push, h]
  · cases p <;> simp [push_code, mergeState, CodeGenState.lintErrors]

/-- C7 (counterexample to the claim as stated).  At push time with
`lintErrors[web]` set to the empty string, `lintErrors` is not `None`, yet
the commit message does not carry the forced-push marker: the code tests
Python truthiness, so an empty diagnostic string yields a plain commit
message.  -/
theorem push_empty_string_errors_get_no_marker :
    (some "" : Option String) ≠ none ∧
    ¬ forcedPushMarker.toList <:+ (pushMessage "Button-01234567" .web (some "")).toList := by
  refine ⟨by decide, ?_⟩
  intro h
  have := (pushMessage_marker_iff "Button-01234567" .web (some "")).mp h
  exact absurd this (by decide)

/-- Reading back a key just written into the association-list workspace. -/
theorem readFile_after_set (files : List (String × String)) (k v : String) :
    (Workspace.mk (assocSet k v files)).readFile k = some v := by
  induction files with
  | nil => simp [Workspace.readFile, assocSet]
  | cons kv rest ih =>
    obtain ⟨k', v'⟩ := kv
    by_cases h : k' = k
    · simp [Workspace.readFile, assocSet, h]
    · simpa [Workspace.readFile, assocSet, h] using ih

/-- C5 (counterexample to the claim as stated).  A state whose `web_code`
is absent together with a workspace already holding `"old"` at the web
target path: the write node catches the `TypeError` and returns normally,
but the file has been truncated to the empty string by `open(..., "w")`,
so the workspace file IS modified. -/
theorem write_missing_code_truncates_existing_file :
    ({ baseState with web_code := none } : CodeGenState).codeFor .web = none ∧
    (Workspace.mk [(filePathFor .web (componentNameOf { baseState with web_code := none }), "old")]).readFile
        (filePathFor .web (componentNameOf { baseState with web_code := none })) = some "old" ∧
    (write_file .web { baseState with web_code := none }
        (Workspace.mk [(filePathFor .web (componentNameOf { baseState with web_code := none }), "old")])
        "t").1.readFile
        (filePathFor .web (componentNameOf { baseState with web_code := none })) = some "" := by
  refine ⟨rfl, by simp [Workspace.readFile], ?_⟩
  show (Workspace.mk (assocSet _ "" _)).readFile _ = some ""
  exact readFile_after_set _ _ ""

/-- C5 (amended).  When `code[p]` is absent the write stage does not throw
out of the node (both branches of the embedded node return an update) and
records the failure as a single error status event while touching no other
state channel, so the branch continues; however it is not a no-op on the
workspace: the attempted write truncates the target file to empty (creating
it when absent) before the write of `None` fails. -/
theorem write_missing_code_no_throw_but_truncates
    (p : Platform) (s : CodeGenState) (ws : Workspace) (ts : String)
    (h : s.codeFor p = none) :
    ((write_file p s ws ts).2.status_history.map (fun ev => (ev.scope, ev.status))
        = [(p.str ++ "_write", "error")]) ∧
    ((write_file p s ws ts).2.web_code = none ∧
     (write_file p s ws ts).2.mobile_code = none ∧
     (write_file p s ws ts).2.web_lint_errors = none ∧
     (write_file p s ws ts).2.mobile_lint_errors = none ∧
     (write_file p s ws ts).2.web_iterations = none ∧
     (write_file p s ws ts).2.mobile_iterations = none) ∧
    (write_file p s ws ts).1.readFile (filePathFor p (componentNameOf s)) = some "" := by
  refine ⟨?_, ?_, ?_⟩
  · simp [write_file, inject_code, h]
  · simp [write_file, inject_code, h]
  · simp [write_file, inject_code, h, readFile_after_set]

/-- Witness for C5 (amended): evaluated at the web platform, the base state
without code, an empty workspace and a fixed timestamp. -/
theorem write_missing_code_no_throw_but_truncates_witness :
    ((write_file .web { baseState with web_code := none } (Workspace.mk []) "t").2.status_history.map
        (fun ev => (ev.scope, ev.status)) = [("web_write", "error")]) ∧
    ((write_file .web { baseState with web_code := none } (Workspace.mk []) "t").2.web_code = none ∧
     (write_file .web { baseState with web_code := none } (Workspace.mk []) "t").2.mobile_code = none ∧
     (write_file .web { baseState with web_code := none } (Workspace.mk []) "t").2.web_lint_errors = none ∧
     (write_file .web { baseState with web_code := none } (Workspace.mk []) "t").2.mobile_lint_errors = none ∧
     (write_file .web { baseState with web_code := none } (Workspace.mk []) "t").2.web_iterations = none ∧
     (write_file .web { baseState with web_code := none } (Workspace.mk []) "t").2.mobile_iterations = none) ∧
    (write_file .web { baseState with web_code := none } (Workspace.mk []) "t").1.readFile
        (filePathFor .web (componentNameOf { baseState with web_code := none })) = some "" :=
  write_missing_code_no_throw_but_truncates .web { baseState with web_code := none }
    (Workspace.mk []) "t" rfl

/-- C10.  The stripping utility is not total: on the input consisting of a
bare fence marker and no line break, the stripped content starts with a
fence, `split("\n", 1)` yields a one-element list, and indexing its second
element raises `IndexError` (modelled by `none`). -/
theorem clean_code_output_bare_fence_raises :
    clean_code_output ("```".toList) = none := by decide

/-- Dropping a trailing newline commutes with right-stripping. -/
theorem pyRstrip_append_newline (l : List Char) :
    pyRstrip (l ++ ['\n']) = pyRstrip l := by
  unfold pyRstrip
  rw [List.reverse_append]
  show (List.dropWhile pyIsSpace ('\n' :: l.reverse)).reverse = _
  rw [List.dropWhile_cons, if_pos (by decide)]

/-- Dropping a trailing newline commutes with stripping. -/
theorem pyStrip_append_newline (l : List Char) :
    pyStrip (l ++ ['\n']) = pyStrip l := by
  unfold pyStrip
  rw [pyRstrip_append_newline]

/-- C8.  Round-trip through the fence stripper: for every (already
whitespace-trimmed) code string `code`, the model output that wraps `code`
in `tsx` fence markers is stripped back to exactly `code` — no leading or
trailing fence and no extra blank lines. -/
theorem clean_code_output_roundtrip (code : List Char) (h : pyStrip code = code) :
    clean_code_output ("```tsx\n".toList ++ code ++ "\n```".toList) = some code := by
  have hrev : (("```tsx\n".toList ++ code) ++ "\n```".toList).reverse
      = '`' :: '`' :: '`' :: '\n' :: (code.reverse ++ ("```tsx\n".toList).reverse) := by
    rw [List.reverse_append, List.reverse_append]
    rfl
  have h1 : pyStrip (("```tsx\n".toList ++ code) ++ "\n```".toList)
      = ("```tsx\n".toList ++ code) ++ "\n```".toList := by
    have hrs : pyRstrip (("```tsx\n".toList ++ code) ++ "\n```".toList)
        = ("```tsx\n".toList ++ code) ++ "\n```".toList := by
      unfold pyRstrip
      rw [hrev, List.dropWhile_cons, if_neg (by decide), ← hrev, List.reverse_reverse]
    unfold pyStrip
    rw [hrs]
    show List.dropWhile pyIsSpace
        ('`' :: (("``tsx\n".toList ++ code) ++ "\n```".toList)) = _
    rw [List.dropWhile_cons, if_neg (by decide)]
    exact rfl
  have htail : ("```".toList).isSuffixOf (code ++ ['\n', '`', '`', '`']) = true := by
    show (("```".toList).reverse).isPrefixOf ((code ++ ['\n', '`', '`', '`']).reverse) = true
    rw [List.reverse_append]
    rfl
  have hmid : pySplitOnce ['\n'] (("```tsx\n".toList ++ code) ++ "\n```".toList)
      = some (['`', '`', '`', 't', 's', 'x'], code ++ ['\n', '`', '`', '`']) := by
    show pySplitOnce ['\n']
        ('`' :: '`' :: '`' :: 't' :: 's' :: 'x' :: '\n' :: (code ++ ['\n', '`', '`', '`'])) = _
    simp [pySplitOnce, List.isPrefixOf]
  have hbefore : pyRsplitBefore ("```".toList) (code ++ ['\n', '`', '`', '`'])
      = code ++ ['\n'] := by
    unfold pyRsplitBefore
    have hs : (code ++ ['\n', '`', '`', '`']).reverse
        = '`' :: '`' :: '`' :: '\n' :: code.reverse := by
      rw [List.reverse_append]
      rfl
    rw [hs]
    show ('\n' :: code.reverse).reverse = code ++ ['\n']
    rw [List.reverse_cons, List.reverse_reverse]
  have hlead : clean_code_output.stripLeadingFence (("```tsx\n".toList ++ code) ++ "\n```".toList)
      = some (code ++ ['\n', '`', '`', '`']) := by
    have hpre : ("```".toList).isPrefixOf (("```tsx\n".toList ++ code) ++ "\n```".toList) = true :=
      rfl
    unfold clean_code_output.stripLeadingFence
    rw [if_pos hpre, hmid]
    rfl
  unfold clean_code_output
  rw [h1, hlead]
  show some (pyStrip (if ("```".toList).isSuffixOf (code ++ ['\n', '`', '`', '`']) then
      pyRsplitBefore ("```".toList) (code ++ ['\n', '`', '`', '`'])
    else code ++ ['\n', '`', '`', '`'])) = some code
  rw [if_pos htail, hbefore, pyStrip_append_newline, h]

/-- Witness for C8: the round-trip evaluated at a concrete code string. -/
theorem clean_code_output_roundtrip_witness :
    pyStrip ("const x = 1".toList) = "const x = 1".toList ∧
    clean_code_output ("```tsx\n".toList ++ "const x = 1".toList ++ "\n```".toList)
      = some ("const x = 1".toList) :=
  ⟨by decide, clean_code_output_roundtrip ("const x = 1".toList) (by decide)⟩

/-- Membership in the model of the Python `set.add`. -/
theorem setAdd_mem (acc : List (Option String)) (y x : Option String) :
    x ∈ setAdd acc y ↔ x ∈ acc ∨ x = y := by
  unfold setAdd
  by_cases h : y ∈ acc
  · rw [if_pos h]
    exact ⟨fun hx => Or.inl hx, fun hx => hx.elim id fun he => he ▸ h⟩
  · rw [if_neg h]
    simp

/-- The model of the Python `set.add` keeps the accumulator duplicate-free. -/
theorem setAdd_nodup (acc : List (Option String)) (y : Option String)
    (h : acc.Nodup) : (setAdd acc y).Nodup := by
  unfold setAdd
  by_cases hy : y ∈ acc
  · rwa [if_pos hy]
  · rw [if_neg hy]
    simp [List.nodup_append, h, hy]

/-- Inversion for `InstanceNamed` at a constructor. -/
theorem instanceNamed_mk_iff (ty nm : Option String) (children : List DesignNode)
    (x : Option String) :
    InstanceNamed (.mk ty nm children) x ↔
      (ty = some "INSTANCE" ∧ x = nm) ∨ ∃ c ∈ children, InstanceNamed c x := by
  constructor
  · intro h
    cases h with
    | here nm children => exact Or.inl ⟨rfl, rfl⟩
    | child hc hi => exact Or.inr ⟨_, hc, hi⟩
  · rintro (⟨rfl, rfl⟩ | ⟨c, hc, hi⟩)
    · exact .here _ _
    · exact .child hc hi

mutual

/-- Membership characterisation of the traversal: it collects exactly the
starting accumulator plus the names of all `INSTANCE` nodes of the tree. -/
theorem collect_mem (t : DesignNode) (acc : List (Option String)) (x : Option String) :
    x ∈ collectComponentNames t acc ↔ x ∈ acc ∨ InstanceNamed t x := by
  obtain ⟨ty, nm, children⟩ := t
  rw [show collectComponentNames (.mk ty nm children) acc
      = collectComponentNames.collectChildren children
          (if ty = some "INSTANCE" then setAdd acc nm else acc) from rfl]
  rw [collectChildren_mem children _ x, instanceNamed_mk_iff]
  by_cases hty : ty = some "INSTANCE"
  · rw [if_pos hty, setAdd_mem]
    constructor
    · rintro ((hx | rfl) | hc)
      · exact Or.inl hx
      · exact Or.inr (Or.inl ⟨hty, rfl⟩)
      · exact Or.inr (Or.inr hc)
    · rintro (hx | (⟨-, rfl⟩ | hc))
      · exact Or.inl (Or.inl hx)
      · exact Or.inl (Or.inr rfl)
      · exact Or.inr hc
  · rw [if_neg hty]
    constructor
    · rintro (hx | hc)
      · exact Or.inl hx
      · exact Or.inr (Or.inr hc)
    · rintro (hx | (⟨hi, -⟩ | hc))
      · exact Or.inl hx
      · exact absurd hi hty
      · exact Or.inr hc

/-- Membership characterisation of the loop over `children`. -/
theorem collectChildren_mem (l : List DesignNode) (acc : List (Option String))
    (x : Option String) :
    x ∈ collectComponentNames.collectChildren l acc ↔
      x ∈ acc ∨ ∃ c ∈ l, InstanceNamed c x := by
  match l with
  | [] =>
    rw [show collectComponentNames.collectChildren [] acc = acc from rfl]
    simp
  | c :: rest =>
    rw [show collectComponentNames.collectChildren (c :: rest) acc
        = collectComponentNames.collectChildren rest (collectComponentNames c acc) from rfl]
    rw [collectChildren_mem rest _ x, collect_mem c acc x]
    constructor
    · rintro ((hx | hc) | ⟨d, hd, hi⟩)
      · exact Or.inl hx
      · exact Or.inr ⟨c, by simp, hc⟩
      · exact Or.inr ⟨d, by simp [hd], hi⟩
    · rintro (hx | ⟨d, hd, hi⟩)
      · exact Or.inl (Or.inl hx)
      · rcases List.mem_cons.mp hd with rfl | hd'
        · exact Or.inl (Or.inr hi)
        · exact Or.inr ⟨d, hd', hi⟩

end

mutual

/-- The traversal keeps the accumulator duplicate-free. -/
theorem collect_nodup (t : DesignNode) (acc : List (Option String))
    (h : acc.Nodup) : (collectComponentNames t acc).Nodup := by
  obtain ⟨ty, nm, children⟩ := t
  rw [show collectComponentNames (.mk ty nm children) acc
      = collectComponentNames.collectChildren children
          (if ty = some "INSTANCE" then setAdd acc nm else acc) from rfl]
  refine collectChildren_nodup children _ ?_
  by_cases hty : ty = some "INSTANCE"
  · rw [if_pos hty]
    exact setAdd_nodup acc nm h
  · rwa [if_neg hty]

/-- The loop over `children` keeps the accumulator duplicate-free. -/
theorem collectChildren_nodup (l : List DesignNode) (acc : List (Option String))
    (h : acc.Nodup) : (collectComponentNames.collectChildren l acc).Nodup := by
  match l with
  | [] =>
    rwa [show collectComponentNames.collectChildren [] acc = acc from rfl]
  | c :: rest =>
    rw [show collectComponentNames.collectChildren (c :: rest) acc
        = collectComponentNames.collectChildren rest (collectComponentNames c acc) from rfl]
    exact collectChildren_nodup rest _ (collect_nodup c acc h)

end

/-- C9.  The component-name extraction returns a duplicate-free collection
containing exactly the `name` values of the nodes whose `type` is
`"INSTANCE"`, found at any depth through the `children` fields — so several
`INSTANCE` nodes sharing one name contribute it once. -/
theorem component_name_extraction_dedup_and_complete (t : DesignNode) (x : Option String) :
    (extractComponentNames t).Nodup ∧
    (x ∈ extractComponentNames t ↔ InstanceNamed t x) := by
  constructor
  · exact collect_nodup t [] (by simp)
  · simpa using collect_mem t [] x

/-! ## The lint → fix → write cycle under a raising linter -/

/-- One turn of the cycle when `run_linter_fix` raises with message `m`:
the lint node (exception branch), then — as routed — the fix node (with
model response `fixRes`), then the write node. -/
def lintExcStep (p : Platform) (ts m : String) (fixRes : Except String String)
    (wss : Workspace × CodeGenState) : Workspace × CodeGenState :=
  let s1 := mergeState wss.2 (run_linter p wss.2 (.exc m) ts)
  let s2 := mergeState s1 (fix_code p s1 fixRes)
  let wu := write_file p s2 wss.1 ts
  (wu.1, mergeState s2 wu.2)

/-- The cycle iterated `n` times from a starting workspace and state. -/
def lintExcIter (p : Platform) (ts m : String) (fixRes : Except String String)
    (start : Workspace × CodeGenState) : Nat → Workspace × CodeGenState
  | 0 => start
  | n + 1 => lintExcStep p ts m fixRes (lintExcIter p ts m fixRes start n)

/-- An update that carries no iteration key leaves the counter reading
unchanged by the merge. -/
theorem mergeState_iterations (s : CodeGenState) (u : StateUpdate) (p : Platform)
    (h1 : u.web_iterations = none) (h2 : u.mobile_iterations = none) :
    (mergeState s u).iterations p = s.iterations p := by
  cases p <;> simp [mergeState, CodeGenState.iterations, h1, h2]

/-- The `lint_errors`-only update carries no iteration key. -/
theorem lintErrorsUpdate_iterations_none (p : Platform) (v : Option String) :
    (lintErrorsUpdate p v).web_iterations = none ∧
    (lintErrorsUpdate p v).mobile_iterations = none := by
  cases p <;> simp [lintErrorsUpdate]

/-- The fix node never writes an iteration key. -/
theorem fix_code_iterations_none (p : Platform) (s : CodeGenState)
    (fr : Except String String) :
    (fix_code p s fr).web_iterations = none ∧
    (fix_code p s fr).mobile_iterations = none := by
  cases h1 : s.codeFor p with
  | none => simp [fix_code, h1, StateUpdate.empty]
  | some c =>
    cases h2 : s.lintErrors p with
    | none => simp [fix_code, h1, h2, StateUpdate.empty]
    | some e =>
      cases fr with
      | error fe => simp [fix_code, h1, h2, StateUpdate.empty]
      | ok raw =>
        cases h3 : cleanCodeOutputStr raw with
        | none => simp [fix_code, h1, h2, h3, StateUpdate.empty]
        | some fixed => cases p <;> simp [fix_code, h1, h2, h3, codeUpdate]

/-- The write node never writes an iteration key. -/
theorem write_file_iterations_none (p : Platform) (s : CodeGenState)
    (ws : Workspace) (ts : String) :
    ((write_file p s ws ts).2).web_iterations = none ∧
    ((write_file p s ws ts).2).mobile_iterations = none := by
  cases h : s.codeFor p <;> simp [write_file, inject_code, h]

/-- Merging the `lint_errors`-only update stores exactly that value. -/
theorem mergeState_lintErrorsUpdate (s : CodeGenState) (p : Platform) (v : Option String) :
    (mergeState s (lintErrorsUpdate p v)).lintErrors p = v := by
  cases p <;> simp [mergeState, lintErrorsUpdate, CodeGenState.lintErrors]

/-- A full cycle under a raising linter leaves the iteration counter
untouched: the lint exception branch returns only `lint_errors`, and the
fix and write nodes never carry an iteration key. -/
theorem lintExcStep_iterations (p : Platform) (ts m : String)
    (fixRes : Except String String) (wss : Workspace × CodeGenState) :
    ((lintExcStep p ts m fixRes wss).2).iterations p = wss.2.iterations p := by
  simp only [lintExcStep]
  rw [mergeState_iterations _ _ p (write_file_iterations_none p _ wss.1 ts).1
      (write_file_iterations_none p _ wss.1 ts).2]
  rw [mergeState_iterations _ _ p (fix_code_iterations_none p _ fixRes).1
      (fix_code_iterations_none p _ fixRes).2]
  show (mergeState wss.2 (lintErrorsUpdate p (some m))).iterations p = _
  rw [mergeState_iterations _ _ p (lintErrorsUpdate_iterations_none p (some m)).1
      (lintErrorsUpdate_iterations_none p (some m)).2]

/-- C2 (refutation; the code contradicts the bounded-retry guarantee).
When every linter invocation raises an exception with a non-empty message,
the lint node returns only `{lint_errors: str(e)}` — it does not increment
`retryCount[p]` — so after every number `n` of lint → fix → write cycles
the counter still holds its starting value and the router still routes to
the fix destination: the fix step is not bounded by `MAX_ITERATIONS`. -/
theorem lint_exception_loop_never_reaches_push
    (p : Platform) (ts m : String) (fixRes : Except String String)
    (start : Workspace × CodeGenState) (n : Nat)
    (hm : m ≠ "") (hit : start.2.iterations p < MAX_ITERATIONS) :
    (run_linter p ((lintExcIter p ts m fixRes start n).2) (.exc m) ts
        = lintErrorsUpdate p (some m)) ∧
    ((lintExcIter p ts m fixRes start n).2).iterations p = start.2.iterations p ∧
    should_continue p
        (mergeState ((lintExcIter p ts m fixRes start n).2)
          (run_linter p ((lintExcIter p ts m fixRes start n).2) (.exc m) ts))
      = "fix_" ++ p.str := by
  have hpres : ∀ k, ((lintExcIter p ts m fixRes start k).2).iterations p
      = start.2.iterations p := by
    intro k
    induction k with
    | zero => rfl
    | succ k ih =>
      rw [show lintExcIter p ts m fixRes start (k + 1)
          = lintExcStep p ts m fixRes (lintExcIter p ts m fixRes start k) from rfl]
      rw [lintExcStep_iterations]
      exact ih
  refine ⟨rfl, hpres n, ?_⟩
  have hle : (mergeState ((lintExcIter p ts m fixRes start n).2)
      (run_linter p ((lintExcIter p ts m fixRes start n).2) (.exc m) ts)).lintErrors p
      = some m := by
    show (mergeState _ (lintErrorsUpdate p (some m))).lintErrors p = some m
    exact mergeState_lintErrorsUpdate _ p (some m)
  have hiter : (mergeState ((lintExcIter p ts m fixRes start n).2)
      (run_linter p ((lintExcIter p ts m fixRes start n).2) (.exc m) ts)).iterations p
      = start.2.iterations p := by
    show (mergeState _ (lintErrorsUpdate p (some m))).iterations p = _
    rw [mergeState_iterations _ _ p (lintErrorsUpdate_iterations_none p (some m)).1
      (lintErrorsUpdate_iterations_none p (some m)).2]
    exact hpres n
  have hemp : m.isEmpty = false := by
    cases h : m.isEmpty
    · rfl
    · exact absurd ((String.isEmpty_iff m).mp h) hm
  have hcond : pyTruthyStr (some m) = true := by
    simp [pyTruthyStr, hemp]
  unfold should_continue
  rw [hle, hiter, if_pos (by simp [hcond, hit])]

/-- Witness for C2 (refutation): after 5 cycles with a concrete raising
linter, starting from the base state with counter 0, the router still says
fix. -/
theorem lint_exception_loop_never_reaches_push_witness :
    ("boom" : String) ≠ "" ∧
    ({ baseState with web_iterations := some 0 } : CodeGenState).iterations .web
        < MAX_ITERATIONS ∧
    should_continue .web
        (mergeState
          ((lintExcIter .web "t" "boom" (Except.error "down")
              (Workspace.mk [], { baseState with web_iterations := some 0 }) 5).2)
          (run_linter .web
            ((lintExcIter .web "t" "boom" (Except.error "down")
                (Workspace.mk [], { baseState with web_iterations := some 0 }) 5).2)
            (.exc "boom") "t"))
      = "fix_web" :=
  ⟨by decide, by decide,
    (lint_exception_loop_never_reaches_push .web "t" "boom" (Except.error "down")
      (Workspace.mk [], { baseState with web_iterations := some 0 }) 5
      (by decide) (by decide)).2.2⟩

/-- A frontier containing only the terminal marker stops the executor. -/
theorem runGraph_terminal (beh : NodeId → CodeGenState → StateUpdate) (ts : String)
    (fuel : Nat) (s : CodeGenState) :
    runGraph beh ts fuel [.terminal] s = (s, []) := by
  cases fuel <;> rfl

/-- Unfolding one executor superstep at the validation gate. -/
theorem runGraph_validate_step (beh : NodeId → CodeGenState → StateUpdate) (ts : String)
    (fuel : Nat) (init : CodeGenState) :
    runGraph beh ts (fuel + 1) [.validateInput] init
      = ((runGraph beh ts fuel
            (successors .validateInput (mergeState init (validate_input ts init)) ++ [])
            (mergeState init (validate_input ts init))).1,
         .validateInput ::
           (runGraph beh ts fuel
            (successors .validateInput (mergeState init (validate_input ts init)) ++ [])
            (mergeState init (validate_input ts init))).2) := rfl

/-- Unfolding one executor superstep at the context-retrieval node. -/
theorem runGraph_retrieve_step (beh : NodeId → CodeGenState → StateUpdate) (ts : String)
    (s2 : CodeGenState) :
    runGraph beh ts 1 ([.retrieveMcpContext] ++ []) s2
      = (mergeState s2 (beh .retrieveMcpContext s2), [.retrieveMcpContext]) := rfl

/-- C4.  The validation gate short-circuits the run: whatever the behaviour
of every other (I/O-performing) node, a run started on a state whose design
tree is missing/empty executes only `validate_input` — neither context
retrieval nor any platform pipeline node — appending exactly one
common-scope error event; on a state with a design tree present it appends
the success event and the next executed node is `retrieve_mcp_context`. -/
theorem validation_gate_blocks_or_routes
    (beh : NodeId → CodeGenState → StateUpdate) (ts : String) (init : CodeGenState) :
    (init.figma_json = none →
      ∀ fuel : Nat,
        (runFromStart beh ts (fuel + 1) init).2 = [NodeId.validateInput] ∧
        (runFromStart beh ts (fuel + 1) init).1.status_history
          = init.status_history ++ [missingFigmaEvent ts] ∧
        ((runFromStart beh ts (fuel + 1) init).1.status_history.getLast?).map
            (fun ev => (ev.scope, ev.status)) = some ("common", "error")) ∧
    (∀ t, init.figma_json = some t →
      (runFromStart beh ts 1 init).1.status_history
          = init.status_history ++ [validatedEvent ts] ∧
      (runFromStart beh ts 2 init).2 = [NodeId.validateInput, NodeId.retrieveMcpContext]) := by
  constructor
  · intro hf fuel
    have hvalhist : (validate_input ts init).status_history = [missingFigmaEvent ts] := by
      simp [validate_input, hf]
    have hhist : (mergeState init (validate_input ts init)).status_history
        = init.status_history ++ [missingFigmaEvent ts] := by
      rw [mergeState_history, hvalhist]
    have hl : (mergeState init (validate_input ts init)).status_history.getLast?
        = some (missingFigmaEvent ts) := by
      rw [hhist, List.getLast?_concat]
    have hroute : successors .validateInput (mergeState init (validate_input ts init))
        = [.terminal] := by
      unfold successors validationRoute
      rw [hl]
      rfl
    rw [show runFromStart beh ts (fuel + 1) init
        = runGraph beh ts (fuel + 1) [.validateInput] init from rfl]
    rw [runGraph_validate_step, hroute]
    rw [show ([NodeId.terminal] ++ [] : List NodeId) = [NodeId.terminal] from rfl]
    rw [runGraph_terminal]
    refine ⟨rfl, hhist, ?_⟩
    show ((mergeState init (validate_input ts init)).status_history.getLast?).map
        (fun ev => (ev.scope, ev.status)) = some ("common", "error")
    rw [hl]
    rfl
  · intro t hf
    have hvalhist : (validate_input ts init).status_history = [validatedEvent ts] := by
      simp [validate_input, hf]
    have hhist : (mergeState init (validate_input ts init)).status_history
        = init.status_history ++ [validatedEvent ts] := by
      rw [mergeState_history, hvalhist]
    have hl : (mergeState init (validate_input ts init)).status_history.getLast?
        = some (validatedEvent ts) := by
      rw [hhist, List.getLast?_concat]
    have hroute : successors .validateInput (mergeState init (validate_input ts init))
        = [.retrieveMcpContext] := by
      unfold successors validationRoute
      rw [hl]
      rfl
    constructor
    · rw [show runFromStart beh ts 1 init = runGraph beh ts (0 + 1) [.validateInput] init
          from rfl]
      rw [runGraph_validate_step, hroute]
      rw [show ([NodeId.retrieveMcpContext] ++ [] : List NodeId) = [NodeId.retrieveMcpContext]
          from rfl]
      show (runGraph beh ts 0 [.retrieveMcpContext]
          (mergeState init (validate_input ts init))).1.status_history = _
      rw [show runGraph beh ts 0 [.retrieveMcpContext] (mergeState init (validate_input ts init))
          = (mergeState init (validate_input ts init), []) from rfl]
      exact hhist
    · rw [show runFromStart beh ts 2 init = runGraph beh ts (1 + 1) [.validateInput] init
          from rfl]
      rw [runGraph_validate_step, hroute, runGraph_retrieve_step]

/-- Witness for C4: evaluated with a trivial behaviour for the I/O nodes, a
fixed timestamp, the base state (design tree missing) and a state holding a
one-node design tree. -/
theorem validation_gate_blocks_or_routes_witness :
    (runFromStart (fun _ _ => StateUpdate.empty) "t" 1 baseState).2 = [NodeId.validateInput] ∧
    (runFromStart (fun _ _ => StateUpdate.empty) "t" 2
        { baseState with figma_json := some (DesignNode.mk none none []) }).2
      = [NodeId.validateInput, NodeId.retrieveMcpContext] :=
  ⟨((validation_gate_blocks_or_routes (fun _ _ => StateUpdate.empty) "t" baseState).1 rfl 0).1,
   ((validation_gate_blocks_or_routes (fun _ _ => StateUpdate.empty) "t"
      { baseState with figma_json := some (DesignNode.mk none none []) }).2
      (DesignNode.mk none none []) rfl).2⟩

/-- Witness for C7 (amended): an empty working tree commits nothing, a
non-empty one commits exactly the built message. -/
theorem push_stage_commit_gating_and_forced_marker_witness :
    (push_code .web baseState (GitRepo.mk "" [] []) "t").1 = GitRepo.mk "" [] [] ∧
    (push_code .web baseState (GitRepo.mk "M page.tsx" [] []) "t").1.commits
      = [] ++ [pushMessage (componentNameOf baseState) .web (baseState.lintErrors .web)] :=
  ⟨(push_stage_commit_gating_and_forced_marker baseState .web (GitRepo.mk "" [] []) "t").1 rfl,
   (push_stage_commit_gating_and_forced_marker baseState .web
      (GitRepo.mk "M page.tsx" [] []) "t").2.1 (by decide)⟩
